import Mathlib

/-!
Verification development for the shared-address-links data pipeline.

The pipeline has two components:
* the graph builder (`prep.py`): normalizes the `Amount` column, validates
  required columns, groups records into a bipartite contributor/address graph
  filtered by a minimum distinct-contributor threshold, and emits `nodes`,
  `edges` and `top_shared_addresses` tables;
* the filter engine (`app.py`): recomputes per-address distinct-contributor
  counts from the edges table and filters the node/edge tables by contributor
  type, threshold, and node total-amount range.

Monetary amounts are modelled as rationals.  Node/edge identifiers
`"person:<i>"` / `"addr:<g>"` are modelled by the tagged type `NodeId`
(the string rendering of the source is injective on the tag and index).
-/

namespace SAL

/-- First occurrences of the elements of a list, in order of first appearance,
keeping track of elements already `seen`.  Models `pandas.factorize` key order
and `Series.unique`. -/
def firstOccsFrom {κ : Type} [DecidableEq κ] (seen : List κ) : List κ → List κ
  | [] => []
  | k :: ks =>
    if k ∈ seen then firstOccsFrom seen ks
    else k :: firstOccsFrom (k :: seen) ks

/-- Distinct elements of a list in order of first appearance. -/
def firstOccs {κ : Type} [DecidableEq κ] (l : List κ) : List κ :=
  firstOccsFrom [] l

/-- Index of the first occurrence of `x` in `l` (the code `pd.factorize`
assigns to `x`; unspecified — length of `l` — when `x` does not occur). -/
def idxOf {κ : Type} [DecidableEq κ] : List κ → κ → Nat
  | [], _ => 0
  | k :: ks, x => if k = x then 0 else idxOf ks x + 1

/-- Group keys of `l` under `key`, in order of first appearance
(models `DataFrame.groupby` group keys). -/
def groups {α κ : Type} [DecidableEq κ] (key : α → κ) (l : List α) : List κ :=
  firstOccs (l.map key)

/-- The rows of `l` belonging to the group with key `k`. -/
def groupRows {α κ : Type} [DecidableEq κ] (key : α → κ) (l : List α) (k : κ) :
    List α :=
  l.filter (fun r => decide (key r = k))

/-- Exact rational addition, spelled through `mkRat` so that concrete
pipeline outputs evaluate inside the kernel (`Rat.add` itself is
`@[irreducible]`); `qadd_eq_add` identifies it with `+`. -/
def qadd (a b : ℚ) : ℚ :=
  mkRat (a.num * b.den + b.num * a.den) (a.den * b.den)

/-- Sum of a list of rationals (the `sum` aggregations of the source),
spelled with `qadd`; `qsum_eq_sum` identifies it with `List.sum`. -/
def qsum (l : List ℚ) : ℚ :=
  l.foldr qadd 0

/-- Strip the currency decoration the source removes:
`s.str.replace("$", "").str.replace(",", "")` (prep.py lines 20-21) removes
every dollar sign and every comma. -/
def stripCurrency (s : String) : String :=
  String.mk (s.toList.filter (fun c => decide (c ≠ '$') && decide (c ≠ ',')))

/-- Numeric value of a digit list, most significant first. -/
def digitsVal (cs : List Char) : Nat :=
  cs.foldl (fun n c => 10 * n + (c.toNat - '0'.toNat)) 0

/-- Parse a decimal numeral string to a rational, or `none` when the string is
not numeric.  Models Python's `float()` as applied by `.astype(float)`
(prep.py line 22) on decimal numerals: an optional sign, an integer part and
an optional fractional part (exponent/`inf`/`nan` forms never occur in
currency data and are not modelled). -/
def parseDecimal (s : String) : Option ℚ :=
  let cs := s.toList
  let signed : Bool × List Char :=
    match cs with
    | '-' :: t => (true, t)
    | '+' :: t => (false, t)
    | _ => (false, cs)
  let ip := signed.2.takeWhile Char.isDigit
  let rest := signed.2.dropWhile Char.isDigit
  let core : Option ℚ :=
    match rest with
    | [] => if ip.isEmpty then none else some (mkRat (digitsVal ip) 1)
    | '.' :: fp =>
      if fp.all Char.isDigit && !(ip.isEmpty && fp.isEmpty) then
        some (mkRat (digitsVal ip * 10 ^ fp.length + digitsVal fp)
          (10 ^ fp.length))
      else none
    | _ => none
  match core with
  | none => none
  | some q => some (if signed.1 then -q else q)

/-- Amount normalization of prep.py lines 17-23: strip `$` and `,`, then
convert to a number; `none` when the conversion would raise `ValueError`. -/
def normalizeAmount (s : String) : Option ℚ :=
  parseDecimal (stripCurrency s)

/-- A raw input row: the values of the four columns used by the pipeline, as
read from the CSV (all modelled as strings; `astype(str)` makes the amount a
string in the source as well). -/
structure RawRow where
  name : String
  ctype : String
  address : String
  amountStr : String
deriving DecidableEq

/-- The input table: which of the relevant columns are present, plus the rows.
When a flag is `false` the corresponding field values of the rows are
meaningless (the column does not exist in the frame). -/
structure Table where
  hasName : Bool
  hasType : Bool
  hasAddr : Bool
  hasAmount : Bool
  rows : List RawRow
deriving DecidableEq

/-- A contribution record after amount normalization. -/
structure Row where
  name : String
  ctype : String
  address : String
  amount : ℚ
deriving DecidableEq

/-- Result of normalizing the whole `Amount` column: the parsed rows, or the
first offending (post-strip) string, as carried by the `ValueError` that
`.astype(float)` raises. -/
inductive NormResult where
  | ok : List Row → NormResult
  | err : String → NormResult
deriving DecidableEq

/-- Normalize the amounts of all rows left to right, failing at the first
value `float()` cannot parse (prep.py lines 17-23). -/
def normalizeRows : List RawRow → NormResult
  | [] => .ok []
  | r :: rs =>
    match normalizeAmount r.amountStr, normalizeRows rs with
    | none, _ => .err (stripCurrency r.amountStr)
    | some q, .ok rows =>
        .ok ({ name := r.name, ctype := r.ctype, address := r.address,
               amount := q } :: rows)
    | some _, .err s => .err s

/-- Node / edge identifiers: the source builds the strings
`"person:" + str(i)` and `"addr:" + str(g)`; the tagged representation keeps
the same information (the rendering is injective). -/
inductive NodeId where
  | person : Nat → NodeId
  | addr : Nat → NodeId
deriving DecidableEq

/-- A row of the `nodes` output table (prep.py lines 77-80): columns
`id, label, type, contrib_type, total_amount, tx_count`. -/
structure Node where
  id : NodeId
  label : String
  type : String
  contrib_type : Option String
  total_amount : ℚ
  tx_count : Nat
deriving DecidableEq

/-- A row of the `edges` output table (prep.py line 89): columns
`source, target, edge_type, address, tx_count, total_amount`. -/
structure Edge where
  source : NodeId
  target : NodeId
  edge_type : String
  address : String
  tx_count : Nat
  total_amount : ℚ
deriving DecidableEq

/-- A row of `addr_stats` / `top_shared_addresses` (prep.py lines 43-48). -/
structure AddrStat where
  group_id : Nat
  full_address : String
  contributors : Nat
  total_amount : ℚ
  tx_count : Nat
deriving DecidableEq

/-- Distinct full addresses in first-occurrence order;
`pd.factorize(df["full_address"])` assigns each address its index in this
list (prep.py line 40). -/
def addrKeys (rows : List Row) : List String :=
  firstOccs (rows.map Row.address)

/-- `group_id` of an address: its first-occurrence index (prep.py line 40). -/
def groupId (rows : List Row) (a : String) : Nat :=
  idxOf (addrKeys rows) a

/-- Number of distinct values in a list (`pd.Series(s.unique()).size`). -/
def distinctCount (l : List String) : Nat :=
  (firstOccs l).length

/-- Per-address statistics (prep.py lines 43-48): one row per
`(group_id, full_address)` group with the distinct-contributor count, summed
amount and record count.  Group keys are sorted by `group_id`, which is the
first-occurrence order of the addresses. -/
def addr_stats (rows : List Row) : List AddrStat :=
  (addrKeys rows).enum.map (fun p =>
    let grp := rows.filter (fun r => decide (r.address = p.2))
    { group_id := p.1
      full_address := p.2
      contributors := distinctCount (grp.map Row.name)
      total_amount := qsum (grp.map Row.amount)
      tx_count := grp.length })

/-- Group ids of addresses with at least `n` distinct contributors
(prep.py line 51). -/
def shared_addr_ids (rows : List Row) (n : Nat) : List Nat :=
  ((addr_stats rows).filter (fun s => decide (n ≤ s.contributors))).map
    AddrStat.group_id

/-- The record set restricted to rows whose `group_id` is shared
(prep.py line 52). -/
def df_shared (rows : List Row) (n : Nat) : List Row :=
  rows.filter (fun r => decide (groupId rows r.address ∈ shared_addr_ids rows n))

/-- `contrib_id` index of a contributor name: its first-occurrence index over
the restricted record set (prep.py line 55). -/
def contribIdx (S : List Row) (nm : String) : Nat :=
  idxOf (firstOccs (S.map Row.name)) nm

/-- Grouping key of `nodes_contrib` (prep.py line 59):
`(contrib_id, Contributor Name, Contributor Type)`. -/
def contribKey (S : List Row) (r : Row) : Nat × String × String :=
  (contribIdx S r.name, (r.name, r.ctype))

/-- Grouping key of `nodes_addr` (prep.py line 68):
`(address_id, full_address)`; the id comes from the `group_id` assigned over
the full frame (prep.py lines 40, 56). -/
def addrNKey (rows : List Row) (r : Row) : Nat × String :=
  (groupId rows r.address, r.address)

/-- Grouping key of `edges` (prep.py line 83):
`(contrib_id, address_id, full_address)`. -/
def edgeKey (rows S : List Row) (r : Row) : Nat × Nat × String :=
  (contribIdx S r.name, (groupId rows r.address, r.address))

/-- The contributor-node row built from one `(contrib_id, name, type)` group
of the restricted set `S` (prep.py lines 59-65). -/
def mkContribNode (S : List Row) (k : Nat × String × String) : Node :=
  { id := NodeId.person k.1
    label := k.2.1
    type := "contributor"
    contrib_type := some k.2.2
    total_amount := qsum ((groupRows (contribKey S) S k).map Row.amount)
    tx_count := (groupRows (contribKey S) S k).length }

/-- Contributor nodes (prep.py lines 59-65): one per
`(contrib_id, name, type)` group of the restricted set, with summed amount
and record count. -/
def nodes_contrib (S : List Row) : List Node :=
  (groups (contribKey S) S).map (mkContribNode S)

/-- Address nodes (prep.py lines 68-74): one per `(address_id, full_address)`
group of the restricted set (`contrib_type` is `NaN`; the distinct-contributor
column is dropped when the tables are combined, prep.py lines 77-80). -/
def mkAddrNode (rows S : List Row) (k : Nat × String) : Node :=
  { id := NodeId.addr k.1
    label := k.2
    type := "address"
    contrib_type := none
    total_amount := qsum ((groupRows (addrNKey rows) S k).map Row.amount)
    tx_count := (groupRows (addrNKey rows) S k).length }

/-- Address nodes as documented above, one per key group. -/
def nodes_addr (rows S : List Row) : List Node :=
  (groups (addrNKey rows) S).map (mkAddrNode rows S)

/-- The combined `nodes` table (prep.py lines 77-80): contributor nodes
followed by address nodes. -/
def nodes_tbl (rows : List Row) (n : Nat) : List Node :=
  nodes_contrib (df_shared rows n) ++ nodes_addr rows (df_shared rows n)

/-- The `edges` table over a restricted record set (prep.py lines 83-89):
one edge per `(contrib_id, address_id, full_address)` group with record count
and summed amount. -/
def mkEdge (rows S : List Row) (k : Nat × Nat × String) : Edge :=
  { source := NodeId.person k.1
    target := NodeId.addr k.2.1
    edge_type := "at_address"
    address := k.2.2
    tx_count := (groupRows (edgeKey rows S) S k).length
    total_amount := qsum ((groupRows (edgeKey rows S) S k).map Row.amount) }

/-- The `edges` rows as documented above, one per key group. -/
def edges_core (rows S : List Row) : List Edge :=
  (groups (edgeKey rows S) S).map (mkEdge rows S)

/-- The `edges` table of the build (prep.py lines 83-89). -/
def edges_tbl (rows : List Row) (n : Nat) : List Edge :=
  edges_core rows (df_shared rows n)

/-- Descending sort order of `top_shared` (prep.py lines 92-93): by
`contributors` descending, ties by `total_amount` descending. -/
def statBefore (s1 s2 : AddrStat) : Bool :=
  decide (s2.contributors < s1.contributors) ||
    (decide (s1.contributors = s2.contributors) &&
      decide (s2.total_amount ≤ s1.total_amount))

/-- Insert into a list sorted by `statBefore`. -/
def insertStat (s : AddrStat) : List AddrStat → List AddrStat
  | [] => [s]
  | t :: ts => if statBefore s t then s :: t :: ts else t :: insertStat s ts

/-- Sort address statistics by `statBefore` (models
`sort_values(["contributors", "total_amount"], ascending=[False, False])`). -/
def sortStats : List AddrStat → List AddrStat
  | [] => []
  | s :: ss => insertStat s (sortStats ss)

/-- The `top_shared_addresses` table (prep.py lines 92-93): the address
statistics restricted to shared ids, sorted descending. -/
def top_shared (rows : List Row) (n : Nat) : List AddrStat :=
  sortStats ((addr_stats rows).filter
    (fun s => decide (s.group_id ∈ shared_addr_ids rows n)))

/-- The three persisted output tables of the build. -/
structure Output where
  nodes : List Node
  edges : List Edge
  top_shared : List AddrStat
deriving DecidableEq

/-- Errors a build can raise, in the order the source can raise them:
`keyError` models the `KeyError` from `df["Amount"]` on a frame without that
column (prep.py line 18); `dataFormat` models the `ValueError` of
`.astype(float)` carrying the offending value (line 22); `missingFields`
models `ValueError(f"Missing required columns: {missing}")` (line 30). -/
inductive BuildError where
  | keyError : String → BuildError
  | dataFormat : String → BuildError
  | missingFields : List String → BuildError
deriving DecidableEq

/-- Result of a build: the three output tables, or the error that aborted it
(an aborted build writes nothing, prep.py lines 95-98 run only at the end). -/
inductive BuildResult where
  | ok : Output → BuildResult
  | error : BuildError → BuildResult
deriving DecidableEq

/-- The required columns whose absence the sanity check reports, in the order
of prep.py lines 27-28. -/
def requiredMissing (t : Table) : List String :=
  (if t.hasName then [] else ["Contributor Name"]) ++
    (if t.hasType then [] else ["Contributor Type"]) ++
      (if t.hasAddr then [] else ["full_address"])

/-- The graph build (prep.py top to bottom): amount normalization first
(line 17, raising `KeyError` when the `Amount` column is absent and
`ValueError` on an unparseable value), then the required-column sanity check
(lines 26-30), then graph construction and the three outputs.  The
`Amount`-default of lines 33-34 is unreachable: when the column is absent
line 17 has already raised. -/
def build (t : Table) (nMin : Nat) : BuildResult :=
  if t.hasAmount = false then .error (.keyError "Amount")
  else
    match normalizeRows t.rows with
    | .err s => .error (.dataFormat s)
    | .ok rows =>
      if requiredMissing t = [] then
        .ok { nodes := nodes_tbl rows nMin
              edges := edges_tbl rows nMin
              top_shared := top_shared rows nMin }
      else .error (.missingFields (requiredMissing t))

/-- Runtime filter parameters of the filter engine (app.py sidebar):
selected contributor types, minimum distinct contributors per address, and
the inclusive node total-amount range. -/
structure FilterParams where
  sel_types : List String
  min_contribs : Nat
  amt_lo : ℚ
  amt_hi : ℚ

/-- Distinct sources of the edges with the given target
(`edges.groupby("target").agg(contributors=("source", "nunique"))`,
app.py line 86). -/
def nuniqueSources (edges : List Edge) (t : NodeId) : Nat :=
  (firstOccs ((edges.filter (fun e => decide (e.target = t))).map
    Edge.source)).length

/-- Per-address recomputed distinct-contributor counts (app.py line 86). -/
def addr_contribs (edges : List Edge) : List (NodeId × Nat) :=
  (groups Edge.target edges).map (fun t => (t, nuniqueSources edges t))

/-- Targets whose recomputed count meets the runtime threshold
(app.py line 87). -/
def addr_keep (edges : List Edge) (m : Nat) : List NodeId :=
  ((addr_contribs edges).filter (fun p => decide (m ≤ p.2))).map Prod.fst

/-- The contributor-side predicate of app.py lines 92-94: all contributor
nodes when no type is selected, otherwise contributor nodes whose
`contrib_type` is among the selected types (`isin` is false on the `NaN`
`contrib_type` of address nodes, modelled by the `none` case). -/
def persons_ok (sel : List String) (nd : Node) : Bool :=
  if sel.isEmpty then decide (nd.type = "contributor")
  else
    decide (nd.type = "contributor") &&
      (match nd.contrib_type with
       | some ct => decide (ct ∈ sel)
       | none => false)

/-- The filtered node table (app.py lines 96-97): keep address nodes in
`addr_keep` and contributor nodes passing the type filter, then apply the
inclusive total-amount range to all kept nodes of either variant. -/
def nodes_f (nodes : List Node) (edges : List Edge) (p : FilterParams) :
    List Node :=
  (nodes.filter (fun nd =>
      (decide (nd.type = "address") &&
        decide (nd.id ∈ addr_keep edges p.min_contribs)) ||
        persons_ok p.sel_types nd)).filter
    (fun nd =>
      decide (p.amt_lo ≤ nd.total_amount) &&
        decide (nd.total_amount ≤ p.amt_hi))

/-- The filtered edge table (app.py lines 99-100): keep an edge only when
both its endpoints survive in the filtered node table. -/
def edges_f (nodes : List Node) (edges : List Edge) (p : FilterParams) :
    List Edge :=
  edges.filter (fun e =>
    decide (e.source ∈ (nodes_f nodes edges p).map Node.id) &&
      decide (e.target ∈ (nodes_f nodes edges p).map Node.id))

/-- The concrete input table of the aggregation scenario:
(Alice, Individual, "1 Main St", $100), (Bob, Individual, "1 Main St", $50),
(Carol, PAC, "2 Oak Ave", $200). -/
def scenarioTable : Table :=
  { hasName := true, hasType := true, hasAddr := true, hasAmount := true
    rows := [{ name := "Alice", ctype := "Individual",
               address := "1 Main St", amountStr := "$100" },
             { name := "Bob", ctype := "Individual",
               address := "1 Main St", amountStr := "$50" },
             { name := "Carol", ctype := "PAC",
               address := "2 Oak Ave", amountStr := "$200" }] }

/-- The scenario records with amounts already normalized. -/
def scenarioRows : List Row :=
  [{ name := "Alice", ctype := "Individual", address := "1 Main St",
     amount := 100 },
   { name := "Bob", ctype := "Individual", address := "1 Main St",
     amount := 50 },
   { name := "Carol", ctype := "PAC", address := "2 Oak Ave",
     amount := 200 }]

/-- Alice's contributor node in the retained scenario graph. -/
def aliceNode : Node :=
  { id := NodeId.person 0, label := "Alice", type := "contributor",
    contrib_type := some "Individual", total_amount := 100, tx_count := 1 }

/-- Bob's contributor node in the retained scenario graph. -/
def bobNode : Node :=
  { id := NodeId.person 1, label := "Bob", type := "contributor",
    contrib_type := some "Individual", total_amount := 50, tx_count := 1 }

/-- The "1 Main St" address node in the retained scenario graph. -/
def mainStNode : Node :=
  { id := NodeId.addr 0, label := "1 Main St", type := "address",
    contrib_type := none, total_amount := 150, tx_count := 2 }

/-- The Alice → "1 Main St" edge of the retained scenario graph. -/
def aliceEdge : Edge :=
  { source := NodeId.person 0, target := NodeId.addr 0,
    edge_type := "at_address", address := "1 Main St", tx_count := 1,
    total_amount := 100 }

/-- The Bob → "1 Main St" edge of the retained scenario graph. -/
def bobEdge : Edge :=
  { source := NodeId.person 1, target := NodeId.addr 0,
    edge_type := "at_address", address := "1 Main St", tx_count := 1,
    total_amount := 50 }

/-- The retained scenario node table. -/
def scenarioNodes : List Node := [aliceNode, bobNode, mainStNode]

/-- The retained scenario edge table. -/
def scenarioEdges : List Edge := [aliceEdge, bobEdge]

/-- A table identical to the scenario table but without an `Amount` column. -/
def noAmountTable : Table :=
  { scenarioTable with hasAmount := false }

/-- A table whose only amount value is the non-numeric string `"N/A"`. -/
def badAmountTable : Table :=
  { hasName := true, hasType := true, hasAddr := true, hasAmount := true
    rows := [{ name := "Alice", ctype := "Individual",
               address := "1 Main St", amountStr := "N/A" }] }

/-- A table missing the required `Contributor Name` column whose amount
value is also non-numeric. -/
def noNameBadAmountTable : Table :=
  { hasName := false, hasType := true, hasAddr := true, hasAmount := true
    rows := [{ name := "", ctype := "Individual",
               address := "1 Main St", amountStr := "N/A" }] }

/-- A table missing the required `Contributor Type` column with parseable
amounts. -/
def noTypeTable : Table :=
  { hasName := true, hasType := false, hasAddr := true, hasAmount := true
    rows := [{ name := "Alice", ctype := "",
               address := "1 Main St", amountStr := "$5" }] }

/-- The filter parameters of the filter-composition scenario:
`selected_types = {"Individual"}`, `min_contributors_per_address = 2`,
`amount_range = (0, 100)`. -/
def typeFilterParams : FilterParams :=
  { sel_types := ["Individual"], min_contribs := 2, amt_lo := 0, amt_hi := 100 }

/-- Filter parameters with an inverted amount range (`range_min = 100 >
range_max = 0`). -/
def invertedRangeParams : FilterParams :=
  { sel_types := [], min_contribs := 2, amt_lo := 100, amt_hi := 0 }

/-- Permissive filter parameters keeping the whole scenario graph. -/
def permissiveParams : FilterParams :=
  { sel_types := [], min_contribs := 2, amt_lo := 0, amt_hi := 1000 }

/-- Filter parameters whose threshold (3) exceeds every address's recomputed
distinct-contributor count in the scenario graph. -/
def highThresholdParams : FilterParams :=
  { sel_types := [], min_contribs := 3, amt_lo := 0, amt_hi := 1000 }

/-- The record set of the aggregate-consistency counterexample: Alice appears
with two contributor types at the same retained address. -/
def mixedTypeRows : List Row :=
  [{ name := "Alice", ctype := "Individual", address := "A", amount := 100 },
   { name := "Alice", ctype := "PAC", address := "A", amount := 50 },
   { name := "Bob", ctype := "Individual", address := "A", amount := 10 }]

theorem mem_firstOccsFrom {κ : Type} [DecidableEq κ] (x : κ) :
    ∀ (l seen : List κ), x ∈ firstOccsFrom seen l ↔ x ∈ l ∧ x ∉ seen := by
  intro l
  induction l with
  | nil => intro seen; simp [firstOccsFrom]
  | cons k ks ih =>
    intro seen
    by_cases hk : k ∈ seen
    · simp only [firstOccsFrom, if_pos hk, ih, List.mem_cons]
      constructor
      · rintro ⟨hm, hs⟩; exact ⟨Or.inr hm, hs⟩
      · rintro ⟨hm | hm, hs⟩
        · exact absurd (hm ▸ hk) hs
        · exact ⟨hm, hs⟩
    · simp only [firstOccsFrom, if_neg hk, List.mem_cons, ih]
      constructor
      · rintro (rfl | ⟨hm, hs⟩)
        · exact ⟨Or.inl rfl, hk⟩
        · exact ⟨Or.inr hm, fun hx => hs (Or.inr hx)⟩
      · rintro ⟨rfl | hm, hs⟩
        · exact Or.inl rfl
        · by_cases hxk : x = k
          · exact Or.inl hxk
          · refine Or.inr ⟨hm, fun hx => ?_⟩
            rcases hx with h1 | h2
            · exact hxk h1
            · exact hs h2

theorem mem_firstOccs {κ : Type} [DecidableEq κ] (x : κ) (l : List κ) :
    x ∈ firstOccs l ↔ x ∈ l := by
  simp [firstOccs, mem_firstOccsFrom]

theorem nodup_firstOccsFrom {κ : Type} [DecidableEq κ] :
    ∀ (l seen : List κ), (firstOccsFrom seen l).Nodup := by
  intro l
  induction l with
  | nil => intro seen; simp [firstOccsFrom]
  | cons k ks ih =>
    intro seen
    by_cases hk : k ∈ seen
    · simpa [firstOccsFrom, if_pos hk] using ih seen
    · simp only [firstOccsFrom, if_neg hk, List.nodup_cons]
      refine ⟨fun hmem => ?_, ih (k :: seen)⟩
      have := (mem_firstOccsFrom k ks (k :: seen)).mp hmem
      exact this.2 (List.mem_cons_self _ _)

theorem nodup_firstOccs {κ : Type} [DecidableEq κ] (l : List κ) :
    (firstOccs l).Nodup :=
  nodup_firstOccsFrom l []

theorem idxOf_inj {κ : Type} [DecidableEq κ] {a b : κ} :
    ∀ {l : List κ}, a ∈ l → b ∈ l → idxOf l a = idxOf l b → a = b := by
  intro l
  induction l with
  | nil => intro ha; cases ha
  | cons k ks ih =>
    intro ha hb h
    simp only [idxOf] at h
    by_cases hka : k = a <;> by_cases hkb : k = b
    · exact hka ▸ hkb
    · rw [if_pos hka, if_neg hkb] at h
      exact absurd h.symm (Nat.succ_ne_zero _)
    · rw [if_neg hka, if_pos hkb] at h
      exact absurd h (Nat.succ_ne_zero _)
    · rw [if_neg hka, if_neg hkb, Nat.add_right_cancel_iff] at h
      have ha' : a ∈ ks := by
        rcases List.mem_cons.mp ha with h1 | h1
        · exact absurd h1.symm hka
        · exact h1
      have hb' : b ∈ ks := by
        rcases List.mem_cons.mp hb with h1 | h1
        · exact absurd h1.symm hkb
        · exact h1
      exact ih ha' hb' h

theorem qadd_eq_add (a b : ℚ) : qadd a b = a + b := by
  rw [Rat.add_def]
  simp [qadd, Rat.normalize_eq_mkRat]

theorem qsum_eq_sum (l : List ℚ) : qsum l = l.sum := by
  induction l with
  | nil => rfl
  | cons a l ih =>
    show qadd a (qsum l) = (a :: l).sum
    rw [qadd_eq_add, ih, List.sum_cons]

/-- C1: on the records (Alice, Individual, "1 Main St", $100),
(Bob, Individual, "1 Main St", $50), (Carol, PAC, "2 Oak Ave", $200) with
`min_contributors_at_address = 2`, the build succeeds; amount normalization
yields the scenario rows; only the address group of "1 Main St" (group id 0)
is retained; the `nodes` table has exactly the three entries Alice, Bob and
the "1 Main St" address node; the `edges` table has exactly two entries, each
with `tx_count = 1`; and neither "Carol" nor "2 Oak Ave" appears in any of
the three output tables. -/
theorem c1_aggregation_scenario :
    build scenarioTable 2 =
      BuildResult.ok { nodes := scenarioNodes, edges := scenarioEdges,
                       top_shared := [{ group_id := 0,
                                        full_address := "1 Main St",
                                        contributors := 2, total_amount := 150,
                                        tx_count := 2 }] } ∧
    normalizeRows scenarioTable.rows = NormResult.ok scenarioRows ∧
    addrKeys scenarioRows = ["1 Main St", "2 Oak Ave"] ∧
    shared_addr_ids scenarioRows 2 = [0] ∧
    (nodes_tbl scenarioRows 2).length = 3 ∧
    aliceNode ∈ nodes_tbl scenarioRows 2 ∧
    bobNode ∈ nodes_tbl scenarioRows 2 ∧
    mainStNode ∈ nodes_tbl scenarioRows 2 ∧
    (edges_tbl scenarioRows 2).length = 2 ∧
    (∀ e ∈ edges_tbl scenarioRows 2, e.tx_count = 1) ∧
    (∀ nd ∈ nodes_tbl scenarioRows 2,
      nd.label ≠ "Carol" ∧ nd.label ≠ "2 Oak Ave") ∧
    (∀ e ∈ edges_tbl scenarioRows 2, e.address ≠ "2 Oak Ave") ∧
    (∀ s ∈ top_shared scenarioRows 2, s.full_address ≠ "2 Oak Ave") := by
  decide

/-- C2: every edge the filter engine keeps has both endpoints among the ids
of the filtered node table — the filtered edge set never dangles. -/
theorem c2_referential_closure (nodes : List Node) (edges : List Edge)
    (p : FilterParams) (e : Edge) (he : e ∈ edges_f nodes edges p) :
    e.source ∈ (nodes_f nodes edges p).map Node.id ∧
      e.target ∈ (nodes_f nodes edges p).map Node.id := by
  have h := List.mem_filter.mp he
  have h2 := h.2
  rw [Bool.and_eq_true] at h2
  exact ⟨of_decide_eq_true h2.1, of_decide_eq_true h2.2⟩

/-- Witness for C2 at the scenario graph with permissive parameters. -/
theorem c2_referential_closure_witness :
    aliceEdge.source ∈
        (nodes_f scenarioNodes scenarioEdges permissiveParams).map Node.id ∧
      aliceEdge.target ∈
        (nodes_f scenarioNodes scenarioEdges permissiveParams).map Node.id :=
  c2_referential_closure scenarioNodes scenarioEdges permissiveParams
    aliceEdge (by decide)

/-- C3: raising the build threshold never adds retained address group ids:
for thresholds `t1 ≤ t2`, every group id retained at `t2` is retained
at `t1`. -/
theorem c3_threshold_monotonicity (rows : List Row) (t1 t2 : Nat)
    (h12 : t1 ≤ t2) (g : Nat) (hg : g ∈ shared_addr_ids rows t2) :
    g ∈ shared_addr_ids rows t1 := by
  unfold shared_addr_ids at hg ⊢
  rcases List.mem_map.mp hg with ⟨s, hs, rfl⟩
  have hs' := List.mem_filter.mp hs
  refine List.mem_map.mpr ⟨s, List.mem_filter.mpr ⟨hs'.1, ?_⟩, rfl⟩
  exact decide_eq_true (Nat.le_trans h12 (of_decide_eq_true hs'.2))

/-- Witness for C3 at the scenario records with thresholds 1 ≤ 2. -/
theorem c3_threshold_monotonicity_witness :
    0 ∈ shared_addr_ids scenarioRows 1 :=
  c3_threshold_monotonicity scenarioRows 1 2 (by decide) 0 (by decide)

/-- C5 counterexample: with `selected_types = {"Individual"}`,
`min_contributors_per_address = 2` and `amount_range = (0, 100)`, the address
node "1 Main St" is NOT retained — its total amount 150 falls outside the
amount range, which app.py line 97 applies to address nodes as well — so the
claim that the filtered output retains the address node is false. -/
theorem c5_address_dropped_counterexample :
    mainStNode ∉ nodes_f scenarioNodes scenarioEdges typeFilterParams := by
  decide

/-- C5 amended: the same filtering retains exactly the contributor nodes
Alice (total 100, in range) and Bob (total 50, excluded only were his total
above 100); the address node (exempt from the type filter but subject to the
amount filter, total 150 out of range) is excluded, and consequently the
filtered edge set is empty. -/
theorem c5_filter_composition_amended :
    nodes_f scenarioNodes scenarioEdges typeFilterParams =
        [aliceNode, bobNode] ∧
      edges_f scenarioNodes scenarioEdges typeFilterParams = [] := by
  decide

/-- C6: on a table without an `Amount` column the build fails immediately:
prep.py line 17 evaluates `df["Amount"]` — raising `KeyError` — before ever
reaching the `Amount`-defaulting code of lines 33-34, which is therefore
unreachable.  The claim that the build proceeds with amounts defaulted to 0.0
is contradicted by the code. -/
theorem c6_missing_amount_column_fails :
    build noAmountTable 2 = BuildResult.error (BuildError.keyError "Amount") := by
  decide

/-- C7: on an inverted amount range (`range_min = 100 > range_max = 0`) the
filter engine raises nothing and silently returns empty node and edge sets:
no validation of the range exists anywhere in app.py, so the claimed
`ValidationError` never occurs. -/
theorem c7_inverted_range_silently_empty :
    nodes_f scenarioNodes scenarioEdges invertedRangeParams = [] ∧
      edges_f scenarioNodes scenarioEdges invertedRangeParams = [] := by
  decide

/-- When some row's amount does not normalize, the column conversion fails,
carrying an offending (post-strip) unparseable value. -/
theorem normalizeRows_err_of_bad :
    ∀ rs : List RawRow, (∃ r ∈ rs, normalizeAmount r.amountStr = none) →
      ∃ s, normalizeRows rs = NormResult.err s ∧ parseDecimal s = none := by
  intro rs
  induction rs with
  | nil => rintro ⟨r, hr, _⟩; cases hr
  | cons a as ih =>
    rintro ⟨r, hr, hbad⟩
    cases h : normalizeAmount a.amountStr with
    | none =>
      exact ⟨stripCurrency a.amountStr, by simp [normalizeRows, h], h⟩
    | some q =>
      have hras : r ∈ as := by
        rcases List.mem_cons.mp hr with rfl | hm
        · rw [h] at hbad; cases hbad
        · exact hm
      rcases ih ⟨r, hras, hbad⟩ with ⟨s, hs, hps⟩
      refine ⟨s, ?_, hps⟩
      simp [normalizeRows, h, hs]

/-- When every row's amount normalizes, the column conversion succeeds. -/
theorem normalizeRows_ok_of_parseable :
    ∀ rs : List RawRow, (∀ r ∈ rs, (normalizeAmount r.amountStr).isSome) →
      ∃ rows, normalizeRows rs = NormResult.ok rows := by
  intro rs
  induction rs with
  | nil => intro _; exact ⟨[], rfl⟩
  | cons a as ih =>
    intro h
    rcases Option.isSome_iff_exists.mp (h a (List.mem_cons_self _ _)) with ⟨q, hq⟩
    rcases ih (fun r hr => h r (List.mem_cons_of_mem _ hr)) with ⟨rows, hrows⟩
    refine ⟨{ name := a.name, ctype := a.ctype, address := a.address,
              amount := q } :: rows, ?_⟩
    simp [normalizeRows, hq, hrows]

/-- C4: amount normalization maps "$1,234.50" to 1234.50 and "$0" to 0.0; on
any table whose `Amount` column contains a value that is non-numeric after
stripping `$` and `,`, the build fails with the data-format error (the
`ValueError` of `.astype(float)`), whose payload is an offending unparseable
value; concretely, an "N/A" amount fails the build with that error. -/
theorem c4_amount_normalization :
    normalizeAmount "$1,234.50" = some ((2469 : ℚ) / 2) ∧
    normalizeAmount "$0" = some 0 ∧
    (∀ (t : Table) (n : Nat), t.hasAmount = true →
      (∃ r ∈ t.rows, normalizeAmount r.amountStr = none) →
      ∃ s, build t n = BuildResult.error (BuildError.dataFormat s) ∧
        parseDecimal s = none) ∧
    build badAmountTable 2 = BuildResult.error (BuildError.dataFormat "N/A") := by
  refine ⟨?_, by decide, ?_, by decide⟩
  · have h1 : normalizeAmount "$1,234.50" = some (mkRat 12345 10) := by decide
    have h2 : mkRat 12345 10 = (2469 : ℚ) / 2 := by
      norm_num [Rat.mkRat_eq_div]
    rw [h1, h2]
  · intro t n ht hbad
    rcases normalizeRows_err_of_bad t.rows hbad with ⟨s, hs, hps⟩
    refine ⟨s, ?_, hps⟩
    simp [build, ht, hs]

/-- Witness for C4's failure clause at the concrete "N/A" table. -/
theorem c4_amount_normalization_witness :
    ∃ s, build badAmountTable 2 = BuildResult.error (BuildError.dataFormat s) ∧
      parseDecimal s = none :=
  c4_amount_normalization.2.2.1 badAmountTable 2 (by decide)
    ⟨{ name := "Alice", ctype := "Individual", address := "1 Main St",
       amountStr := "N/A" }, by decide, by decide⟩

/-- C8 counterexample: on a table missing the required `Contributor Name`
column whose amount value is "N/A", the build fails with the data-format
error of the amount conversion (prep.py line 17 runs before the
required-column check of lines 26-30), not with the missing-column error the
claim requires for every input missing a required column. -/
theorem c8_missing_column_counterexample :
    build noNameBadAmountTable 2 =
        BuildResult.error (BuildError.dataFormat "N/A") ∧
      build noNameBadAmountTable 2 ≠
        BuildResult.error (BuildError.missingFields ["Contributor Name"]) := by
  decide

/-- C8 amended: provided the `Amount` column is present and every amount
normalizes (so that the earlier amount-conversion step does not fail first),
a table missing any required column makes the build fail with the
missing-columns error naming exactly the absent required columns, and no
output tables are produced. -/
theorem c8_missing_required_columns_amended (t : Table) (n : Nat)
    (hA : t.hasAmount = true)
    (hp : ∀ r ∈ t.rows, (normalizeAmount r.amountStr).isSome)
    (hm : requiredMissing t ≠ []) :
    build t n =
        BuildResult.error (BuildError.missingFields (requiredMissing t)) ∧
      (t.hasName = false → "Contributor Name" ∈ requiredMissing t) ∧
      (t.hasType = false → "Contributor Type" ∈ requiredMissing t) ∧
      (t.hasAddr = false → "full_address" ∈ requiredMissing t) ∧
      ∀ o : Output, build t n ≠ BuildResult.ok o := by
  rcases normalizeRows_ok_of_parseable t.rows hp with ⟨rows, hrows⟩
  have hb : build t n =
      BuildResult.error (BuildError.missingFields (requiredMissing t)) := by
    simp [build, hA, hrows, hm]
  refine ⟨hb, ?_, ?_, ?_, ?_⟩
  · intro h; simp [requiredMissing, h]
  · intro h; simp [requiredMissing, h]
  · intro h; simp [requiredMissing, h]
  · intro o h
    rw [hb] at h
    cases h

/-- Witness for C8's amended claim at a table missing `Contributor Type`. -/
theorem c8_missing_required_columns_witness :
    build noTypeTable 2 =
      BuildResult.error (BuildError.missingFields (requiredMissing noTypeTable)) :=
  (c8_missing_required_columns_amended noTypeTable 2 (by decide) (by decide)
    (by decide)).1

/-- When no target's recomputed distinct-source count reaches the threshold,
no address id is kept. -/
theorem addr_keep_eq_nil (edges : List Edge) (m : Nat)
    (h : ∀ e ∈ edges, nuniqueSources edges e.target < m) :
    addr_keep edges m = [] := by
  have hf : (addr_contribs edges).filter (fun p => decide (m ≤ p.2)) = [] := by
    rw [List.filter_eq_nil_iff]
    intro p hp
    rcases List.mem_map.mp hp with ⟨t, ht, rfl⟩
    have ht' : t ∈ edges.map Edge.target := (mem_firstOccs _ _).mp ht
    rcases List.mem_map.mp ht' with ⟨e, he, rfl⟩
    simpa using Nat.not_le.mpr (h e he)
  unfold addr_keep
  rw [hf]
  rfl

/-- A node passing the contributor-side predicate is contributor-typed. -/
theorem persons_ok_type {sel : List String} {nd : Node}
    (h : persons_ok sel nd = true) : nd.type = "contributor" := by
  unfold persons_ok at h
  by_cases hs : sel.isEmpty
  · rw [if_pos hs] at h
    exact of_decide_eq_true h
  · rw [if_neg hs] at h
    rw [Bool.and_eq_true] at h
    exact of_decide_eq_true h.1

/-- C9: whenever the runtime threshold exceeds every address's recomputed
distinct-contributor count — on a graph where edge targets reference only
address-typed nodes — the filtered node set is exactly the contributor nodes
passing the type and amount filters, the filtered address node set is empty,
and the filtered edge set is empty (the filter is a total function: no error
is raised). -/
theorem c9_high_threshold_empty (nodes : List Node) (edges : List Edge)
    (p : FilterParams)
    (hcnt : ∀ e ∈ edges, nuniqueSources edges e.target < p.min_contribs)
    (hbip : ∀ e ∈ edges, ∀ nd ∈ nodes, nd.id = e.target →
      nd.type = "address") :
    nodes_f nodes edges p =
        (nodes.filter (fun nd => persons_ok p.sel_types nd)).filter
          (fun nd => decide (p.amt_lo ≤ nd.total_amount) &&
            decide (nd.total_amount ≤ p.amt_hi)) ∧
      (nodes_f nodes edges p).filter
        (fun nd => decide (nd.type = "address")) = [] ∧
      edges_f nodes edges p = [] := by
  have haddr := addr_keep_eq_nil edges p.min_contribs hcnt
  have h1 : nodes_f nodes edges p =
      (nodes.filter (fun nd => persons_ok p.sel_types nd)).filter
        (fun nd => decide (p.amt_lo ≤ nd.total_amount) &&
          decide (nd.total_amount ≤ p.amt_hi)) := by
    unfold nodes_f
    rw [haddr]
    congr 1
    apply List.filter_congr
    intro nd _
    simp
  have h2 : (nodes_f nodes edges p).filter
      (fun nd => decide (nd.type = "address")) = [] := by
    rw [List.filter_eq_nil_iff]
    intro nd hnd
    rw [h1] at hnd
    have hpo : persons_ok p.sel_types nd = true :=
      (List.mem_filter.mp (List.mem_of_mem_filter hnd)).2
    simp [persons_ok_type hpo]
  refine ⟨h1, h2, ?_⟩
  unfold edges_f
  rw [List.filter_eq_nil_iff]
  intro e he hb
  rw [Bool.and_eq_true] at hb
  have htgt := of_decide_eq_true hb.2
  rcases List.mem_map.mp htgt with ⟨nd, hnd, hid⟩
  have hnd_nodes : nd ∈ nodes := by
    rw [h1] at hnd
    exact List.mem_of_mem_filter (List.mem_of_mem_filter hnd)
  have hpo : persons_ok p.sel_types nd = true := by
    rw [h1] at hnd
    exact (List.mem_filter.mp (List.mem_of_mem_filter hnd)).2
  have hty := hbip e he nd hnd_nodes hid
  rw [persons_ok_type hpo] at hty
  exact absurd hty (by decide)

/-- Witness for C9 at the scenario graph with threshold 3 (every address has
only 2 distinct contributors there). -/
theorem c9_high_threshold_empty_witness :
    nodes_f scenarioNodes scenarioEdges highThresholdParams =
        (scenarioNodes.filter
            (fun nd => persons_ok highThresholdParams.sel_types nd)).filter
          (fun nd => decide (highThresholdParams.amt_lo ≤ nd.total_amount) &&
            decide (nd.total_amount ≤ highThresholdParams.amt_hi)) ∧
      (nodes_f scenarioNodes scenarioEdges highThresholdParams).filter
        (fun nd => decide (nd.type = "address")) = [] ∧
      edges_f scenarioNodes scenarioEdges highThresholdParams = [] :=
  c9_high_threshold_empty scenarioNodes scenarioEdges highThresholdParams
    (by decide) (by decide)

theorem sum_map_zero {κ M : Type} [AddCommMonoid M] (l : List κ) :
    (l.map (fun _ => (0 : M))).sum = 0 := by
  induction l with
  | nil => rfl
  | cons a l ih => simp [ih]

theorem sum_map_add {κ M : Type} [AddCommMonoid M] (f g : κ → M)
    (l : List κ) :
    (l.map (fun k => f k + g k)).sum = (l.map f).sum + (l.map g).sum := by
  induction l with
  | nil => simp
  | cons a l ih =>
    simp only [List.map_cons, List.sum_cons, ih]
    exact add_add_add_comm _ _ _ _

theorem sum_map_ite_eq {κ M : Type} [DecidableEq κ] [AddCommMonoid M]
    (x : κ) (c : M) :
    ∀ l : List κ, l.Nodup →
      (l.map (fun k => if x = k then c else 0)).sum =
        if x ∈ l then c else 0 := by
  intro l
  induction l with
  | nil => intro _; simp
  | cons a l ih =>
    intro hnd
    rcases List.nodup_cons.mp hnd with ⟨ha, hl⟩
    by_cases hxa : x = a
    · subst hxa
      rw [List.map_cons, List.sum_cons, if_pos rfl, ih hl, if_neg ha,
        if_pos (List.mem_cons_self _ _), add_zero]
    · rw [List.map_cons, List.sum_cons, if_neg hxa, ih hl, zero_add]
      by_cases hxl : x ∈ l
      · rw [if_pos hxl, if_pos (List.mem_cons_of_mem _ hxl)]
      · have hx : x ∉ a :: l := by
          intro hx
          rcases List.mem_cons.mp hx with h | h
          · exact hxa h
          · exact hxl h
        rw [if_neg hxl, if_neg hx]

/-- Summing group sums over a nodup key list covering a row list, restricted
to keys satisfying `p`, equals the sum over the rows whose key satisfies
`p`. -/
theorem sum_partition_filter {α κ M : Type} [DecidableEq κ] [AddCommMonoid M]
    (key : α → κ) (f : α → M) (p : κ → Bool) :
    ∀ (S : List α) (ks : List κ), ks.Nodup → (∀ r ∈ S, key r ∈ ks) →
      ((ks.filter p).map
          (fun k => ((S.filter (fun r => decide (key r = k))).map f).sum)).sum
        = ((S.filter (fun r => p (key r))).map f).sum := by
  intro S
  induction S with
  | nil =>
    intro ks _ _
    simp [sum_map_zero]
  | cons r S ih =>
    intro ks hnd hcov
    have hks : key r ∈ ks := hcov r (List.mem_cons_self _ _)
    have hcov' : ∀ x ∈ S, key x ∈ ks :=
      fun x hx => hcov x (List.mem_cons_of_mem _ hx)
    have hmap :
        (ks.filter p).map (fun k =>
            (((r :: S).filter (fun x => decide (key x = k))).map f).sum)
          = (ks.filter p).map (fun k =>
            (if key r = k then f r else 0)
              + ((S.filter (fun x => decide (key x = k))).map f).sum) := by
      apply List.map_congr_left
      intro k _
      by_cases h : key r = k
      · simp [List.filter_cons, h]
      · simp [List.filter_cons, h]
    rw [hmap, sum_map_add, ih ks hnd hcov',
      sum_map_ite_eq (key r) (f r) (ks.filter p) (hnd.filter p)]
    by_cases hp : p (key r) = true
    · rw [if_pos (List.mem_filter.mpr ⟨hks, hp⟩)]
      simp [List.filter_cons, hp]
    · have hnmem : key r ∉ ks.filter p :=
        fun hmem => hp (List.mem_filter.mp hmem).2
      rw [if_neg hnmem, zero_add, Bool.not_eq_true] at *
      simp [List.filter_cons, hp]

/-- Specialization of `sum_partition_filter` to the groupby combinators. -/
theorem sum_groups_filter {α κ M : Type} [DecidableEq κ] [AddCommMonoid M]
    (key : α → κ) (f : α → M) (p : κ → Bool) (S : List α) :
    (((groups key S).filter p).map
        (fun k => ((groupRows key S k).map f).sum)).sum
      = ((S.filter (fun r => p (key r))).map f).sum :=
  sum_partition_filter key f p S (groups key S) (nodup_firstOccs _)
    (fun _ hr => (mem_firstOccs _ _).mpr (List.mem_map_of_mem key hr))

theorem length_eq_sum_ones {α : Type} (l : List α) :
    (l.map (fun _ => (1 : ℕ))).sum = l.length := by
  induction l with
  | nil => rfl
  | cons a l ih => simp [ih, Nat.add_comm]

/-- Length version of `sum_groups_filter`: the summed sizes of the selected
groups equal the number of rows whose key is selected. -/
theorem len_groups_filter {α κ : Type} [DecidableEq κ]
    (key : α → κ) (p : κ → Bool) (S : List α) :
    (((groups key S).filter p).map (fun k => (groupRows key S k).length)).sum
      = (S.filter (fun r => p (key r))).length := by
  calc (((groups key S).filter p).map
        (fun k => (groupRows key S k).length)).sum
      = (((groups key S).filter p).map
          (fun k => ((groupRows key S k).map (fun _ => (1 : ℕ))).sum)).sum := by
        apply congrArg List.sum
        apply List.map_congr_left
        intro k _
        rw [length_eq_sum_ones]
    _ = ((S.filter (fun r => p (key r))).map (fun _ => (1 : ℕ))).sum :=
        sum_groups_filter key (fun _ => (1 : ℕ)) p S
    _ = (S.filter (fun r => p (key r))).length := length_eq_sum_ones _

/-- Filtering a mapped list is mapping the filtered preimage list. -/
theorem filter_map_comm {α β : Type} (f : α → β) (p : β → Bool) :
    ∀ l : List α, (l.map f).filter p = (l.filter (fun a => p (f a))).map f := by
  intro l
  induction l with
  | nil => rfl
  | cons a l ih =>
    by_cases h : p (f a) = true
    · simp [List.filter_cons, h, ih]
    · simp [List.filter_cons, h, ih]

@[simp] theorem mkContribNode_id (S : List Row) (k : Nat × String × String) :
    (mkContribNode S k).id = NodeId.person k.1 := rfl

@[simp] theorem mkContribNode_type (S : List Row) (k : Nat × String × String) :
    (mkContribNode S k).type = "contributor" := rfl

@[simp] theorem mkContribNode_total (S : List Row) (k : Nat × String × String) :
    (mkContribNode S k).total_amount =
      qsum ((groupRows (contribKey S) S k).map Row.amount) := rfl

@[simp] theorem mkContribNode_tx (S : List Row) (k : Nat × String × String) :
    (mkContribNode S k).tx_count = (groupRows (contribKey S) S k).length := rfl

@[simp] theorem mkAddrNode_id (rows S : List Row) (k : Nat × String) :
    (mkAddrNode rows S k).id = NodeId.addr k.1 := rfl

@[simp] theorem mkAddrNode_type (rows S : List Row) (k : Nat × String) :
    (mkAddrNode rows S k).type = "address" := rfl

@[simp] theorem mkAddrNode_total (rows S : List Row) (k : Nat × String) :
    (mkAddrNode rows S k).total_amount =
      qsum ((groupRows (addrNKey rows) S k).map Row.amount) := rfl

@[simp] theorem mkAddrNode_tx (rows S : List Row) (k : Nat × String) :
    (mkAddrNode rows S k).tx_count = (groupRows (addrNKey rows) S k).length :=
  rfl

@[simp] theorem mkEdge_source (rows S : List Row) (k : Nat × Nat × String) :
    (mkEdge rows S k).source = NodeId.person k.1 := rfl

@[simp] theorem mkEdge_target (rows S : List Row) (k : Nat × Nat × String) :
    (mkEdge rows S k).target = NodeId.addr k.2.1 := rfl

@[simp] theorem mkEdge_total (rows S : List Row) (k : Nat × Nat × String) :
    (mkEdge rows S k).total_amount =
      qsum ((groupRows (edgeKey rows S) S k).map Row.amount) := rfl

@[simp] theorem mkEdge_tx (rows S : List Row) (k : Nat × Nat × String) :
    (mkEdge rows S k).tx_count = (groupRows (edgeKey rows S) S k).length := rfl

/-- Edges with a given source index are the edge groups with that contributor
index. -/
theorem edges_core_filter_source (rows S : List Row) (c : Nat) :
    (edges_core rows S).filter (fun e => decide (e.source = NodeId.person c))
      = ((groups (edgeKey rows S) S).filter
          (fun k => decide (k.1 = c))).map (mkEdge rows S) := by
  unfold edges_core
  rw [filter_map_comm]
  congr 1
  apply List.filter_congr
  intro k _
  exact decide_eq_decide.mpr (by simp)

/-- Edges with a given target group id are the edge groups with that address
index. -/
theorem edges_core_filter_target (rows S : List Row) (g : Nat) :
    (edges_core rows S).filter (fun e => decide (e.target = NodeId.addr g))
      = ((groups (edgeKey rows S) S).filter
          (fun k => decide (k.2.1 = g))).map (mkEdge rows S) := by
  unfold edges_core
  rw [filter_map_comm]
  congr 1
  apply List.filter_congr
  intro k _
  exact decide_eq_decide.mpr (by simp)

/-- Node rows with a given contributor id are the contributor groups with
that index (address nodes never carry a `person` id). -/
theorem nodes_filter_person (rows S : List Row) (c : Nat) :
    (nodes_contrib S ++ nodes_addr rows S).filter
        (fun nd => decide (nd.id = NodeId.person c))
      = ((groups (contribKey S) S).filter
          (fun k => decide (k.1 = c))).map (mkContribNode S) := by
  rw [List.filter_append]
  have haddr0 : (nodes_addr rows S).filter
      (fun nd => decide (nd.id = NodeId.person c)) = [] := by
    rw [List.filter_eq_nil_iff]
    intro nd hnd
    rcases List.mem_map.mp hnd with ⟨k, _, rfl⟩
    simp
  rw [haddr0, List.append_nil]
  unfold nodes_contrib
  rw [filter_map_comm]
  congr 1
  apply List.filter_congr
  intro k _
  exact decide_eq_decide.mpr (by simp)

/-- Summed `total_amount` over selected contributor-node groups, as a sum of
the underlying row amounts. -/
theorem contrib_nodes_amount_sum (S : List Row)
    (p : Nat × String × String → Bool) :
    qsum ((((groups (contribKey S) S).filter p).map
        (mkContribNode S)).map Node.total_amount)
      = ((S.filter (fun r => p (contribKey S r))).map Row.amount).sum := by
  rw [qsum_eq_sum, List.map_map]
  calc (((groups (contribKey S) S).filter p).map
        (Node.total_amount ∘ mkContribNode S)).sum
      = (((groups (contribKey S) S).filter p).map
          (fun k => ((groupRows (contribKey S) S k).map Row.amount).sum)).sum := by
        apply congrArg List.sum
        apply List.map_congr_left
        intro k _
        show qsum _ = _
        rw [qsum_eq_sum]
    _ = ((S.filter (fun r => p (contribKey S r))).map Row.amount).sum :=
        sum_groups_filter _ _ _ _

/-- Summed `tx_count` over selected contributor-node groups, as a row
count. -/
theorem contrib_nodes_tx_sum (S : List Row)
    (p : Nat × String × String → Bool) :
    ((((groups (contribKey S) S).filter p).map
        (mkContribNode S)).map Node.tx_count).sum
      = (S.filter (fun r => p (contribKey S r))).length := by
  rw [List.map_map]
  calc (((groups (contribKey S) S).filter p).map
        (Node.tx_count ∘ mkContribNode S)).sum
      = (((groups (contribKey S) S).filter p).map
          (fun k => (groupRows (contribKey S) S k).length)).sum := rfl
    _ = (S.filter (fun r => p (contribKey S r))).length :=
        len_groups_filter _ _ _

/-- Summed `total_amount` over selected edge groups, as a sum of the
underlying row amounts. -/
theorem edges_amount_sum (rows S : List Row) (p : Nat × Nat × String → Bool) :
    qsum ((((groups (edgeKey rows S) S).filter p).map
        (mkEdge rows S)).map Edge.total_amount)
      = ((S.filter (fun r => p (edgeKey rows S r))).map Row.amount).sum := by
  rw [qsum_eq_sum, List.map_map]
  calc (((groups (edgeKey rows S) S).filter p).map
        (Edge.total_amount ∘ mkEdge rows S)).sum
      = (((groups (edgeKey rows S) S).filter p).map
          (fun k => ((groupRows (edgeKey rows S) S k).map Row.amount).sum)).sum := by
        apply congrArg List.sum
        apply List.map_congr_left
        intro k _
        show qsum _ = _
        rw [qsum_eq_sum]
    _ = ((S.filter (fun r => p (edgeKey rows S r))).map Row.amount).sum :=
        sum_groups_filter _ _ _ _

/-- Summed `tx_count` over selected edge groups, as a row count. -/
theorem edges_tx_sum (rows S : List Row) (p : Nat × Nat × String → Bool) :
    ((((groups (edgeKey rows S) S).filter p).map
        (mkEdge rows S)).map Edge.tx_count).sum
      = (S.filter (fun r => p (edgeKey rows S r))).length := by
  rw [List.map_map]
  calc (((groups (edgeKey rows S) S).filter p).map
        (Edge.tx_count ∘ mkEdge rows S)).sum
      = (((groups (edgeKey rows S) S).filter p).map
          (fun k => (groupRows (edgeKey rows S) S k).length)).sum := rfl
    _ = (S.filter (fun r => p (edgeKey rows S r))).length :=
        len_groups_filter _ _ _

/-- C10 counterexample: in the build over `mixedTypeRows` (Alice appears with
types "Individual" and "PAC" at the same retained address), the contributor
node (person:0, Alice, Individual) has `total_amount` 100, while the edges
with source person:0 total 150 — pd.factorize assigns one `contrib_id` per
name, the node table splits that id across its two type groups, and the edge
table aggregates over the id alone.  The claim that every contributor node's
`total_amount` equals the sum over its outgoing edges is therefore false. -/
theorem c10_aggregate_consistency_counterexample :
    ¬ (∀ nd ∈ nodes_tbl mixedTypeRows 2, nd.type = "contributor" →
        nd.total_amount = qsum (((edges_tbl mixedTypeRows 2).filter
          (fun e => decide (e.source = nd.id))).map Edge.total_amount)) := by
  decide

/-- C10 amended: node aggregates are consistent with incident-edge aggregates
up to id grouping.  (i) Every address node's `total_amount` and `tx_count`
equal the respective sums over the edges targeting it, exactly as claimed.
(ii) For contributor nodes the equality holds per contributor id: the sums of
`total_amount` (resp. `tx_count`) over the node rows carrying id `person c`
equal the sums over the edges with source `person c` — per individual node
row it fails only when one contributor name carries several types (see the
counterexample). -/
theorem c10_aggregate_consistency_amended (rows : List Row) (n : Nat) :
    (∀ nd ∈ nodes_tbl rows n, nd.type = "address" →
      nd.total_amount = qsum (((edges_tbl rows n).filter
          (fun e => decide (e.target = nd.id))).map Edge.total_amount) ∧
      nd.tx_count = (((edges_tbl rows n).filter
          (fun e => decide (e.target = nd.id))).map Edge.tx_count).sum) ∧
    (∀ c : Nat,
      qsum (((nodes_tbl rows n).filter
          (fun nd => decide (nd.id = NodeId.person c))).map Node.total_amount)
        = qsum (((edges_tbl rows n).filter
            (fun e => decide (e.source = NodeId.person c))).map
              Edge.total_amount) ∧
      (((nodes_tbl rows n).filter
          (fun nd => decide (nd.id = NodeId.person c))).map Node.tx_count).sum
        = (((edges_tbl rows n).filter
            (fun e => decide (e.source = NodeId.person c))).map
              Edge.tx_count).sum) := by
  constructor
  · intro nd hnd hty
    have hnd' : nd ∈ nodes_contrib (df_shared rows n)
        ++ nodes_addr rows (df_shared rows n) := hnd
    rcases List.mem_append.mp hnd' with hc | ha
    · rcases List.mem_map.mp hc with ⟨k, _, rfl⟩
      simp at hty
    · rcases List.mem_map.mp ha with ⟨k, hk, rfl⟩
      obtain ⟨g, a⟩ := k
      have hkmem : (g, a) ∈ (df_shared rows n).map (addrNKey rows) :=
        (mem_firstOccs _ _).mp hk
      rcases List.mem_map.mp hkmem with ⟨r0, hr0S, hr0k⟩
      have hfst : groupId rows r0.address = g := congrArg Prod.fst hr0k
      have hsnd : r0.address = a := congrArg Prod.snd hr0k
      have hr0rows : r0 ∈ rows := List.mem_of_mem_filter hr0S
      have haK : a ∈ addrKeys rows := by
        rw [← hsnd]
        exact (mem_firstOccs _ _).mpr (List.mem_map_of_mem Row.address hr0rows)
      have hga : groupId rows a = g := by rw [← hsnd]; exact hfst
      have hfilters : (df_shared rows n).filter
            (fun r => decide (addrNKey rows r = (g, a)))
          = (df_shared rows n).filter
            (fun r => decide ((edgeKey rows (df_shared rows n) r).2.1 = g)) := by
        apply List.filter_congr
        intro r hrS
        apply decide_eq_decide.mpr
        constructor
        · intro h
          exact congrArg Prod.fst h
        · intro h
          have h' : groupId rows r.address = g := h
          have hra : r.address ∈ addrKeys rows :=
            (mem_firstOccs _ _).mpr
              (List.mem_map_of_mem Row.address (List.mem_of_mem_filter hrS))
          have heq : r.address = a := idxOf_inj hra haK (h'.trans hga.symm)
          show (groupId rows r.address, r.address) = (g, a)
          rw [h', heq]
      constructor
      · show qsum (((df_shared rows n).filter
              (fun r => decide (addrNKey rows r = (g, a)))).map Row.amount)
            = qsum (((edges_core rows (df_shared rows n)).filter
                (fun e => decide (e.target = NodeId.addr g))).map
                  Edge.total_amount)
        rw [edges_core_filter_target rows (df_shared rows n) g,
          edges_amount_sum rows (df_shared rows n)
            (fun k => decide (k.2.1 = g)),
          qsum_eq_sum, hfilters]
      · show ((df_shared rows n).filter
              (fun r => decide (addrNKey rows r = (g, a)))).length
            = (((edges_core rows (df_shared rows n)).filter
                (fun e => decide (e.target = NodeId.addr g))).map
                  Edge.tx_count).sum
        rw [edges_core_filter_target rows (df_shared rows n) g,
          edges_tx_sum rows (df_shared rows n) (fun k => decide (k.2.1 = g)),
          hfilters]
  · intro c
    constructor
    · show qsum (((nodes_contrib (df_shared rows n)
            ++ nodes_addr rows (df_shared rows n)).filter
              (fun nd => decide (nd.id = NodeId.person c))).map
                Node.total_amount)
          = qsum (((edges_core rows (df_shared rows n)).filter
              (fun e => decide (e.source = NodeId.person c))).map
                Edge.total_amount)
      rw [nodes_filter_person rows (df_shared rows n) c,
        edges_core_filter_source rows (df_shared rows n) c,
        contrib_nodes_amount_sum (df_shared rows n)
          (fun k => decide (k.1 = c)),
        edges_amount_sum rows (df_shared rows n) (fun k => decide (k.1 = c))]
      rfl
    · show (((nodes_contrib (df_shared rows n)
            ++ nodes_addr rows (df_shared rows n)).filter
              (fun nd => decide (nd.id = NodeId.person c))).map
                Node.tx_count).sum
          = (((edges_core rows (df_shared rows n)).filter
              (fun e => decide (e.source = NodeId.person c))).map
                Edge.tx_count).sum
      rw [nodes_filter_person rows (df_shared rows n) c,
        edges_core_filter_source rows (df_shared rows n) c,
        contrib_nodes_tx_sum (df_shared rows n) (fun k => decide (k.1 = c)),
        edges_tx_sum rows (df_shared rows n) (fun k => decide (k.1 = c))]
      rfl

/-- Witness for C10's amended claim: the scenario address node's total equals
the summed totals of the edges targeting it. -/
theorem c10_aggregate_consistency_witness :
    mainStNode.total_amount = qsum (((edges_tbl scenarioRows 2).filter
        (fun e => decide (e.target = mainStNode.id))).map Edge.total_amount) :=
  ((c10_aggregate_consistency_amended scenarioRows 2).1 mainStNode (by decide)
    (by decide)).1

end SAL

